import Mathlib

/-!
Verification of the VirtualProctor anti-cheating pipeline.

Shallow embedding of src/cheatdetection.py (class CheatDetection,
method detect_cheating) and src/utils.py
(person_from_keypoints_with_scores and the data model classes).
Python floats are modelled as rationals; the external pose detector and
the external classifier are parameters of the pipeline functions.
-/

set_option autoImplicit false

namespace VirtualProctor

/-- Python int() applied to a rational: truncation toward zero. -/
def pyInt (q : ℚ) : ℤ := if 0 ≤ q then ⌊q⌋ else ⌈q⌉

/-! ## Decision rule (cheatdetection.py lines 45-51)

    if prediction[0] == np.max(prediction):
        if prediction[0] >= 10000*prediction[1]:
            predicted_class = 0
        else:
            predicted_class = 1
    else:
        predicted_class = 2
-/

/-- np.max over a 3-element vector. -/
def np_max3 (p0 p1 p2 : ℚ) : ℚ := max p0 (max p1 p2)

/-- The predicted class, 0 / 1 / 2, computed from the 3-element prediction
vector exactly as in cheatdetection.py lines 45-51. -/
def predicted_class (p0 p1 p2 : ℚ) : ℕ :=
  if p0 = np_max3 p0 p1 p2 then
    if p0 ≥ 10000 * p1 then 0 else 1
  else 2

/-- The three outcome labels that the spec attaches to the classes:
class 0 = CHEATING, class 1 = NOT_CHEATING, class 2 = UNCERTAIN. -/
inductive Decision where
  | CHEATING
  | NOT_CHEATING
  | UNCERTAIN
deriving DecidableEq, Repr

/-- Map a predicted class number to its spec label. -/
def decisionOfClass (c : ℕ) : Decision :=
  if c = 0 then Decision.CHEATING
  else if c = 1 then Decision.NOT_CHEATING
  else Decision.UNCERTAIN

/-- The decision rule as a function from the probability vector to a label. -/
def decision_rule (p0 p1 p2 : ℚ) : Decision :=
  decisionOfClass (predicted_class p0 p1 p2)

/-- Rewriting the decision rule into its three labelled branches. -/
theorem decision_rule_eq_ite (p0 p1 p2 : ℚ) :
    decision_rule p0 p1 p2 =
      if p0 = np_max3 p0 p1 p2 then
        if p0 ≥ 10000 * p1 then Decision.CHEATING else Decision.NOT_CHEATING
      else Decision.UNCERTAIN := by
  simp only [decision_rule, predicted_class]
  split_ifs <;> rfl

/-- C1: the decision rule classifies CHEATING iff p0 equals the maximum of
the vector and p0 is at least 10000 times p1; NOT_CHEATING iff p0 equals the
maximum but is below 10000 times p1; UNCERTAIN iff p0 is not the maximum.
The four literal boundary cases of the spec evaluate as stated. -/
theorem c1_decision_rule_characterization :
    (∀ p0 p1 p2 : ℚ,
      (decision_rule p0 p1 p2 = Decision.CHEATING ↔
        p0 = np_max3 p0 p1 p2 ∧ p0 ≥ 10000 * p1) ∧
      (decision_rule p0 p1 p2 = Decision.NOT_CHEATING ↔
        p0 = np_max3 p0 p1 p2 ∧ p0 < 10000 * p1) ∧
      (decision_rule p0 p1 p2 = Decision.UNCERTAIN ↔
        p0 ≠ np_max3 p0 p1 p2)) ∧
    decision_rule (9999/10000) (5/100000) (5/100000) = Decision.CHEATING ∧
    decision_rule (6/10) (3/10) (1/10) = Decision.NOT_CHEATING ∧
    decision_rule (3/10) (5/10) (2/10) = Decision.UNCERTAIN ∧
    decision_rule (3/10) (2/10) (5/10) = Decision.UNCERTAIN := by
  refine ⟨fun p0 p1 p2 => ?_, ?_, ?_, ?_, ?_⟩
  · rw [decision_rule_eq_ite]
    by_cases hmax : p0 = np_max3 p0 p1 p2
    · by_cases hdom : p0 ≥ 10000 * p1
      · rw [if_pos hmax, if_pos hdom]
        exact ⟨iff_of_true rfl ⟨hmax, hdom⟩,
          iff_of_false (by decide) (fun h => absurd h.2 (not_lt.2 hdom)),
          iff_of_false (by decide) (fun h => h hmax)⟩
      · rw [if_pos hmax, if_neg hdom]
        exact ⟨iff_of_false (by decide) (fun h => hdom h.2),
          iff_of_true rfl ⟨hmax, lt_of_not_ge hdom⟩,
          iff_of_false (by decide) (fun h => h hmax)⟩
    · rw [if_neg hmax]
      exact ⟨iff_of_false (by decide) (fun h => hmax h.1),
        iff_of_false (by decide) (fun h => hmax h.1),
        iff_of_true rfl hmax⟩
  all_goals
    rw [decision_rule_eq_ite]
    norm_num [np_max3, max_def]

/-- C3: the decision rule is deterministic, a pure function of the three
probability values: equal inputs give equal decisions. -/
theorem c3_decision_rule_deterministic (p0 p1 p2 q0 q1 q2 : ℚ)
    (h0 : p0 = q0) (h1 : p1 = q1) (h2 : p2 = q2) :
    decision_rule p0 p1 p2 = decision_rule q0 q1 q2 := by
  rw [h0, h1, h2]

/-- Witness for C3 at a concrete probability vector. -/
theorem c3_decision_rule_deterministic_witness :
    decision_rule (1/2) (1/4) (1/4) = decision_rule (1/2) (1/4) (1/4) :=
  c3_decision_rule_deterministic (1/2) (1/4) (1/4) (1/2) (1/4) (1/4) rfl rfl rfl

/-! ## Data model (utils.py lines 30-54) -/

/-- A point in 2D space (utils.py class Point). -/
structure Point where
  x : ℚ
  y : ℚ
deriving DecidableEq, Repr

/-- A rectangle in 2D space (utils.py class Rectangle). -/
structure Rectangle where
  start_point : Point
  end_point : Point
deriving DecidableEq, Repr

/-- A detected human keypoint (utils.py class KeyPoint); the body part is
kept as its enumeration index 0-16. -/
structure KeyPoint where
  body_part : ℕ
  coordinate : Point
  score : ℚ
deriving DecidableEq, Repr

/-- A pose detected by a pose estimation model (utils.py class Person).
The score is an Option: none models the undefined average (NaN or
arithmetic error) produced when no keypoint score exceeds the threshold. -/
structure Person where
  keypoints : List KeyPoint
  bounding_box : Rectangle
  score : Option ℚ
  id : Option ℕ := none
deriving DecidableEq, Repr

/-- One row [x, y, score] of the raw keypoints_with_scores array. -/
structure Row where
  x : ℚ
  y : ℚ
  score : ℚ
deriving DecidableEq, Repr

/-! ## person_from_keypoints_with_scores (utils.py lines 57-101) -/

/-- The keypoint list built by the loop at utils.py lines 81-87: the i-th
appended KeyPoint is KeyPoint(BodyPart(i), Point(int(x_i), int(y_i)), s_i).
The first argument is the index of the next row. -/
def buildKeypoints : ℕ → List Row → List KeyPoint
  | _, [] => []
  | i, r :: rs =>
      { body_part := i,
        coordinate := { x := (pyInt r.x : ℚ), y := (pyInt r.y : ℚ) },
        score := r.score } :: buildKeypoints (i + 1) rs

/-- np.amin over a list of rationals. np.amin raises on an empty array, so
the value returned here for [] is junk and is never relied upon: every
theorem about the bounding box assumes a nonempty input. -/
def amin : List ℚ → ℚ
  | [] => 0
  | x :: xs => xs.foldl min x

/-- np.amax over a list of rationals; same caveat about [] as amin. -/
def amax : List ℚ → ℚ
  | [] => 0
  | x :: xs => xs.foldl max x

/-- np.average over a list of rationals: undefined (none) on an empty list,
matching the NaN / ArithmeticError behaviour of utils.py line 99. -/
def npAverage (l : List ℚ) : Option ℚ :=
  if l = [] then none else some (l.sum / l.length)

/-- Creates a Person instance from single pose estimation model output
(utils.py lines 57-101). The raw [17, 3] array is the list of its rows;
image_height and image_width are the parameters of the same name. -/
def person_from_keypoints_with_scores (keypoints_with_scores : List Row)
    (image_height image_width : ℚ)
    (keypoint_score_threshold : ℚ := 1/10) : Person :=
  let kpts_x := keypoints_with_scores.map Row.x
  let kpts_y := keypoints_with_scores.map Row.y
  let scores := keypoints_with_scores.map Row.score
  let keypoints := buildKeypoints 0 keypoints_with_scores
  let start_point : Point :=
    { x := (pyInt (amin kpts_x) : ℚ), y := (pyInt (amin kpts_y) : ℚ) }
  let end_point : Point :=
    { x := (pyInt (amax kpts_x) : ℚ), y := (pyInt (amax kpts_y) : ℚ) }
  let bounding_box : Rectangle :=
    { start_point := start_point, end_point := end_point }
  let scores_above_threshold :=
    scores.filter (fun s => keypoint_score_threshold < s)
  let person_score := npAverage scores_above_threshold
  { keypoints := keypoints, bounding_box := bounding_box,
    score := person_score }

/-! ## Helper lemmas -/

theorem buildKeypoints_length (k : ℕ) (rows : List Row) :
    (buildKeypoints k rows).length = rows.length := by
  induction rows generalizing k with
  | nil => rfl
  | cons r rs ih => simp [buildKeypoints, ih]

theorem buildKeypoints_get (rows : List Row) (k i : ℕ)
    (h : i < (buildKeypoints k rows).length) (h2 : i < rows.length) :
    (buildKeypoints k rows).get ⟨i, h⟩ =
      { body_part := k + i,
        coordinate := { x := (pyInt (rows.get ⟨i, h2⟩).x : ℚ),
                        y := (pyInt (rows.get ⟨i, h2⟩).y : ℚ) },
        score := (rows.get ⟨i, h2⟩).score } := by
  induction rows generalizing k i with
  | nil => exact absurd h2 (Nat.not_lt_zero i)
  | cons r rs ih =>
    cases i with
    | zero => rfl
    | succ n =>
      have hn : n < rs.length := Nat.lt_of_succ_lt_succ h2
      have hn1 : n < (buildKeypoints (k + 1) rs).length := by
        rw [buildKeypoints_length]; exact hn
      show (buildKeypoints (k + 1) rs).get ⟨n, hn1⟩ = _
      rw [ih (k + 1) n hn1 hn]
      have hk : k + 1 + n = k + (n + 1) := by omega
      rw [hk]
      rfl

theorem kp_mem_buildKeypoints {kp : KeyPoint} {k : ℕ} {rows : List Row}
    (h : kp ∈ buildKeypoints k rows) :
    ∃ r ∈ rows, kp.coordinate.x = (pyInt r.x : ℚ) ∧
      kp.coordinate.y = (pyInt r.y : ℚ) := by
  induction rows generalizing k with
  | nil => cases h
  | cons r rs ih =>
    simp only [buildKeypoints, List.mem_cons] at h
    rcases h with h | h
    · exact ⟨r, List.mem_cons_self r rs, by rw [h], by rw [h]⟩
    · obtain ⟨s, hs, hx, hy⟩ := ih h
      exact ⟨s, List.mem_cons_of_mem r hs, hx, hy⟩

theorem foldl_min_le (xs : List ℚ) (a : ℚ) :
    xs.foldl min a ≤ a ∧ ∀ x ∈ xs, xs.foldl min a ≤ x := by
  induction xs generalizing a with
  | nil => exact ⟨le_refl a, by simp⟩
  | cons x xs ih =>
    have h := ih (min a x)
    refine ⟨(h.1).trans (min_le_left a x), ?_⟩
    intro y hy
    rcases List.mem_cons.1 hy with rfl | hy
    · exact (h.1).trans (min_le_right a y)
    · exact h.2 y hy

theorem le_foldl_max (xs : List ℚ) (a : ℚ) :
    a ≤ xs.foldl max a ∧ ∀ x ∈ xs, x ≤ xs.foldl max a := by
  induction xs generalizing a with
  | nil => exact ⟨le_refl a, by simp⟩
  | cons x xs ih =>
    have h := ih (max a x)
    refine ⟨(le_max_left a x).trans h.1, ?_⟩
    intro y hy
    rcases List.mem_cons.1 hy with rfl | hy
    · exact (le_max_right a y).trans h.1
    · exact h.2 y hy

theorem amin_le {l : List ℚ} {x : ℚ} (h : x ∈ l) : amin l ≤ x := by
  cases l with
  | nil => cases h
  | cons a as =>
    rcases List.mem_cons.1 h with rfl | h
    · exact (foldl_min_le as x).1
    · exact (foldl_min_le as a).2 x h

theorem le_amax {l : List ℚ} {x : ℚ} (h : x ∈ l) : x ≤ amax l := by
  cases l with
  | nil => cases h
  | cons a as =>
    rcases List.mem_cons.1 h with rfl | h
    · exact (le_foldl_max as x).1
    · exact (le_foldl_max as a).2 x h

theorem amin_le_amax {l : List ℚ} (h : l ≠ []) : amin l ≤ amax l := by
  cases l with
  | nil => exact absurd rfl h
  | cons a as =>
    exact (amin_le (List.mem_cons_self a as)).trans
      (le_amax (List.mem_cons_self a as))

theorem pyInt_mono {a b : ℚ} (h : a ≤ b) : pyInt a ≤ pyInt b := by
  unfold pyInt
  by_cases ha : 0 ≤ a
  · rw [if_pos ha, if_pos (ha.trans h)]
    exact Int.floor_le_floor h
  · by_cases hb : 0 ≤ b
    · rw [if_neg ha, if_pos hb]
      have ha0 : a ≤ ((0 : ℤ) : ℚ) := by
        push_cast
        exact le_of_lt (not_le.1 ha)
      exact (Int.ceil_le.2 ha0).trans (Int.floor_nonneg.2 hb)
    · rw [if_neg ha, if_neg hb]
      exact Int.ceil_le_ceil h

theorem person_from_keypoints (rows : List Row) (h w t : ℚ) :
    (person_from_keypoints_with_scores rows h w t).keypoints =
      buildKeypoints 0 rows := rfl

theorem person_from_bbox (rows : List Row) (h w t : ℚ) :
    (person_from_keypoints_with_scores rows h w t).bounding_box =
      { start_point := { x := (pyInt (amin (rows.map Row.x)) : ℚ),
                         y := (pyInt (amin (rows.map Row.y)) : ℚ) },
        end_point := { x := (pyInt (amax (rows.map Row.x)) : ℚ),
                       y := (pyInt (amax (rows.map Row.y)) : ℚ) } } := rfl

theorem person_from_score (rows : List Row) (h w t : ℚ) :
    (person_from_keypoints_with_scores rows h w t).score =
      npAverage ((rows.map Row.score).filter (fun s => t < s)) := rfl

/-- C5: on a 17-row input, the returned Person has exactly 17 keypoints, the
i-th carrying BodyPart index i (so each index 0-16 appears exactly once);
the bounding box start is componentwise at most its end; and the bounding
box contains every keypoint coordinate of the returned Person. -/
theorem c5_person_invariants (rows : List Row) (ih iw t : ℚ)
    (hlen : rows.length = 17) :
    (person_from_keypoints_with_scores rows ih iw t).keypoints.length = 17 ∧
    (∀ i (hi : i < (person_from_keypoints_with_scores rows ih iw t).keypoints.length),
      ((person_from_keypoints_with_scores rows ih iw t).keypoints.get ⟨i, hi⟩).body_part = i) ∧
    (person_from_keypoints_with_scores rows ih iw t).bounding_box.start_point.x ≤
      (person_from_keypoints_with_scores rows ih iw t).bounding_box.end_point.x ∧
    (person_from_keypoints_with_scores rows ih iw t).bounding_box.start_point.y ≤
      (person_from_keypoints_with_scores rows ih iw t).bounding_box.end_point.y ∧
    ∀ kp ∈ (person_from_keypoints_with_scores rows ih iw t).keypoints,
      (person_from_keypoints_with_scores rows ih iw t).bounding_box.start_point.x ≤
          kp.coordinate.x ∧
      kp.coordinate.x ≤
          (person_from_keypoints_with_scores rows ih iw t).bounding_box.end_point.x ∧
      (person_from_keypoints_with_scores rows ih iw t).bounding_box.start_point.y ≤
          kp.coordinate.y ∧
      kp.coordinate.y ≤
          (person_from_keypoints_with_scores rows ih iw t).bounding_box.end_point.y := by
  have hne : rows ≠ [] := by
    intro h0
    rw [h0] at hlen
    cases hlen
  have hxne : rows.map Row.x ≠ [] := fun hmap => hne (List.map_eq_nil_iff.1 hmap)
  have hyne : rows.map Row.y ≠ [] := fun hmap => hne (List.map_eq_nil_iff.1 hmap)
  refine ⟨?_, ?_, ?_, ?_, ?_⟩
  · rw [person_from_keypoints, buildKeypoints_length, hlen]
  · intro i hi
    have hi2 : i < rows.length := by
      have h3 := hi
      rw [person_from_keypoints, buildKeypoints_length] at h3
      exact h3
    have hb : i < (buildKeypoints 0 rows).length := by
      rw [buildKeypoints_length]
      exact hi2
    show ((buildKeypoints 0 rows).get ⟨i, hb⟩).body_part = i
    rw [buildKeypoints_get rows 0 i hb hi2]
    exact Nat.zero_add i
  · show ((pyInt (amin (rows.map Row.x)) : ℤ) : ℚ) ≤ (pyInt (amax (rows.map Row.x)) : ℚ)
    exact_mod_cast pyInt_mono (amin_le_amax hxne)
  · show ((pyInt (amin (rows.map Row.y)) : ℤ) : ℚ) ≤ (pyInt (amax (rows.map Row.y)) : ℚ)
    exact_mod_cast pyInt_mono (amin_le_amax hyne)
  · intro kp hkp
    rw [person_from_keypoints] at hkp
    obtain ⟨r, hr, hx, hy⟩ := kp_mem_buildKeypoints hkp
    have hrx : r.x ∈ rows.map Row.x := List.mem_map_of_mem Row.x hr
    have hry : r.y ∈ rows.map Row.y := List.mem_map_of_mem Row.y hr
    rw [person_from_bbox, hx, hy]
    dsimp only
    exact ⟨by exact_mod_cast pyInt_mono (amin_le hrx),
      by exact_mod_cast pyInt_mono (le_amax hrx),
      by exact_mod_cast pyInt_mono (amin_le hry),
      by exact_mod_cast pyInt_mono (le_amax hry)⟩

/-- Witness for C5: a concrete 17-row input satisfying the hypothesis. -/
theorem c5_person_invariants_witness :
    (List.replicate 17 (Row.mk 0 0 1)).length = 17 ∧
    (person_from_keypoints_with_scores (List.replicate 17 (Row.mk 0 0 1))
        480 640 (1/10)).keypoints.length = 17 :=
  ⟨by decide,
    (c5_person_invariants (List.replicate 17 (Row.mk 0 0 1)) 480 640 (1/10)
      (by decide)).1⟩

/-- C6: the Person score is the arithmetic mean of exactly the keypoint
scores strictly above the threshold: it is undefined (none) when no score
exceeds the threshold, and otherwise it is the value m with
m times the count of retained scores equal to their sum. -/
theorem c6_person_score (rows : List Row) (ih iw t : ℚ) :
    ((rows.map Row.score).filter (fun s => t < s) = [] →
      (person_from_keypoints_with_scores rows ih iw t).score = none) ∧
    ((rows.map Row.score).filter (fun s => t < s) ≠ [] →
      ∃ m, (person_from_keypoints_with_scores rows ih iw t).score = some m ∧
        m * (((rows.map Row.score).filter (fun s => t < s)).length : ℚ) =
          ((rows.map Row.score).filter (fun s => t < s)).sum) := by
  constructor
  · intro h0
    rw [person_from_score, h0]
    rfl
  · intro h0
    refine ⟨((rows.map Row.score).filter (fun s => t < s)).sum /
      (((rows.map Row.score).filter (fun s => t < s)).length : ℚ), ?_, ?_⟩
    · rw [person_from_score]
      unfold npAverage
      rw [if_neg h0]
    · have hlen : ((((rows.map Row.score).filter (fun s => t < s)).length : ℕ) : ℚ) ≠ 0 :=
        Nat.cast_ne_zero.2 (fun hz => h0 (List.length_eq_zero.1 hz))
      exact div_mul_cancel₀ _ hlen

/-- Witness for C6: a one-row input whose score is below the threshold
(score undefined) and a one-row input whose score is above it. -/
theorem c6_person_score_witness :
    (person_from_keypoints_with_scores [Row.mk 0 0 0] 480 640 0).score = none ∧
    ∃ m, (person_from_keypoints_with_scores [Row.mk 0 0 1] 480 640 0).score = some m ∧
      m * ((([Row.mk 0 0 1].map Row.score).filter (fun s => (0:ℚ) < s)).length : ℚ) =
        (([Row.mk 0 0 1].map Row.score).filter (fun s => (0:ℚ) < s)).sum :=
  ⟨(c6_person_score [Row.mk 0 0 0] 480 640 0).1
      (by norm_num [List.filter_cons]),
    (c6_person_score [Row.mk 0 0 1] 480 640 0).2
      (by norm_num [List.filter_cons])⟩

/-- A 17-row input whose first row has the non-integer x-coordinate 1/2. -/
def c7rows : List Row :=
  Row.mk (1/2) 0 1 :: List.replicate 16 (Row.mk 0 0 1)

/-- Counterexample to C7: on c7rows the first keypoint coordinate of the
returned Person is 0, not the 1/2 that was provided in the input row, so
coordinates are not taken over unmodified. -/
theorem c7_counterexample :
    ((person_from_keypoints_with_scores c7rows 480 640 (1/10)).keypoints.head?.map
        (fun kp => kp.coordinate.x)) ≠
      (c7rows.head?.map (fun r => r.x)) := by
  have hfl : ⌊(1/2 : ℚ)⌋ = 0 := by
    rw [Int.floor_eq_iff]
    norm_num
  have h0 : pyInt (1/2 : ℚ) = 0 := by
    unfold pyInt
    rw [if_pos (by norm_num), hfl]
  simp only [person_from_keypoints, c7rows, buildKeypoints, List.head?,
    Option.map, h0]
  intro h
  have h2 := Option.some.inj h
  norm_num at h2

/-- C7 as amended: each keypoint coordinate of the returned Person equals
the corresponding input row coordinate truncated toward zero by Python
int(); no rescaling by image_height or image_width is applied. -/
theorem c7_coordinates_truncated (rows : List Row) (ih iw t : ℚ)
    (i : ℕ) (hi : i < rows.length) :
    ∃ hb : i < (person_from_keypoints_with_scores rows ih iw t).keypoints.length,
      ((person_from_keypoints_with_scores rows ih iw t).keypoints.get ⟨i, hb⟩).coordinate.x
          = (pyInt (rows.get ⟨i, hi⟩).x : ℚ) ∧
      ((person_from_keypoints_with_scores rows ih iw t).keypoints.get ⟨i, hb⟩).coordinate.y
          = (pyInt (rows.get ⟨i, hi⟩).y : ℚ) := by
  have hb : i < (buildKeypoints 0 rows).length := by
    rw [buildKeypoints_length]
    exact hi
  refine ⟨hb, ?_⟩
  show ((buildKeypoints 0 rows).get ⟨i, hb⟩).coordinate.x = _ ∧
    ((buildKeypoints 0 rows).get ⟨i, hb⟩).coordinate.y = _
  rw [buildKeypoints_get rows 0 i hb hi]
  exact ⟨rfl, rfl⟩

/-- Witness for C7 as amended, at a concrete one-row input. -/
theorem c7_coordinates_truncated_witness :
    (0 : ℕ) < ([Row.mk 3 4 1] : List Row).length ∧
    ∃ hb : 0 < (person_from_keypoints_with_scores [Row.mk 3 4 1] 480 640 (1/10)).keypoints.length,
      ((person_from_keypoints_with_scores [Row.mk 3 4 1] 480 640 (1/10)).keypoints.get
          ⟨0, hb⟩).coordinate.x = (pyInt (([Row.mk 3 4 1] : List Row).get ⟨0, by decide⟩).x : ℚ) ∧
      ((person_from_keypoints_with_scores [Row.mk 3 4 1] 480 640 (1/10)).keypoints.get
          ⟨0, hb⟩).coordinate.y = (pyInt (([Row.mk 3 4 1] : List Row).get ⟨0, by decide⟩).y : ℚ) :=
  ⟨by decide, c7_coordinates_truncated [Row.mk 3 4 1] 480 640 (1/10) 0 (by decide)⟩

/-- C9: the result of person_from_keypoints_with_scores does not depend on
image_height or image_width: the function body never reads them. -/
theorem c9_image_dims_unused (rows : List Row) (t h1 w1 h2 w2 : ℚ) :
    person_from_keypoints_with_scores rows h1 w1 t =
      person_from_keypoints_with_scores rows h2 w2 t := rfl

/-! ## Frame model and CheatDetection.detect_cheating
(cheatdetection.py lines 28-60) -/

/-- A rectangle drawn by cv2.rectangle: integer corner points, BGR color
tuple, line thickness. -/
structure DrawnRect where
  start_point : ℤ × ℤ
  end_point : ℤ × ℤ
  color : ℕ × ℕ × ℕ
  thickness : ℕ
deriving DecidableEq, Repr

/-- An image buffer: raw camera data, or an image with one rectangle drawn
on top. Equality of Frame values models pixel-content equality. -/
inductive Frame where
  | raw (data : ℕ)
  | rect (f : Frame) (r : DrawnRect)
deriving DecidableEq, Repr

/-- cv2.rectangle: returns the image with the given rectangle drawn. -/
def cv2_rectangle (image : Frame) (sp ep : ℤ × ℤ) (color : ℕ × ℕ × ℕ)
    (thickness : ℕ) : Frame :=
  Frame.rect image
    { start_point := sp, end_point := ep, color := color,
      thickness := thickness }

/-- The rectangles drawn on a frame, in drawing order. -/
def drawnRects : Frame → List DrawnRect
  | Frame.raw _ => []
  | Frame.rect f r => drawnRects f ++ [r]

/-- The red box drawn at cheatdetection.py lines 56-58 for a person
classified as cheating: corner points int()-truncated from the person
bounding box, BGR color (0, 0, 255) (red), thickness 2. -/
def cheatRect (person : Person) : DrawnRect :=
  { start_point := (pyInt person.bounding_box.start_point.x,
                    pyInt person.bounding_box.start_point.y),
    end_point := (pyInt person.bounding_box.end_point.x,
                  pyInt person.bounding_box.end_point.y),
    color := (0, 0, 255),
    thickness := 2 }

/-- One iteration of the loop at cheatdetection.py lines 34-58. The
predict argument stands for the composition of the embedding construction
(lines 35-41) and self.model.predict (lines 43-44): it maps a person to
the squeezed 3-element prediction vector. -/
def detect_step (predict : Person → ℚ × ℚ × ℚ) (acc : Frame × Bool)
    (person : Person) : Frame × Bool :=
  let pred := predict person
  if predicted_class pred.1 pred.2.1 pred.2.2 = 0 then
    (cv2_rectangle acc.1
      (pyInt person.bounding_box.start_point.x,
       pyInt person.bounding_box.start_point.y)
      (pyInt person.bounding_box.end_point.x,
       pyInt person.bounding_box.end_point.y)
      (0, 0, 255) 2, true)
  else acc

/-- CheatDetection.detect_cheating (cheatdetection.py lines 28-60), with
the external pose detector output passed as the persons list and the
embedding-plus-classifier pipeline passed as predict. -/
def detect_cheating (predict : Person → ℚ × ℚ × ℚ) (image : Frame)
    (persons : List Person) : Frame × Bool :=
  if persons = [] then (image, false)
  else persons.foldl (detect_step predict) (image, false)

/-- One loop iteration when the embedding construction or the classifier
call may fail: the python body of the loop has no try/except, so a raised
exception propagates. Failure of predictE models any exception raised in
lines 35-44 for that person. -/
def detect_stepE (predictE : Person → Except Unit (ℚ × ℚ × ℚ))
    (acc : Frame × Bool) (person : Person) : Except Unit (Frame × Bool) :=
  match predictE person with
  | Except.error e => Except.error e
  | Except.ok pred =>
      Except.ok (if predicted_class pred.1 pred.2.1 pred.2.2 = 0 then
        (cv2_rectangle acc.1
          (pyInt person.bounding_box.start_point.x,
           pyInt person.bounding_box.start_point.y)
          (pyInt person.bounding_box.end_point.x,
           pyInt person.bounding_box.end_point.y)
          (0, 0, 255) 2, true)
      else acc)

/-- detect_cheating when per-person processing may raise: the loop is a
monadic fold over Except, since no exception handling surrounds the loop
body in cheatdetection.py lines 34-58. -/
def detect_cheatingE (predictE : Person → Except Unit (ℚ × ℚ × ℚ))
    (image : Frame) (persons : List Person) : Except Unit (Frame × Bool) :=
  if persons = [] then Except.ok (image, false)
  else persons.foldlM (detect_stepE predictE) (image, false)

/-! ## Helper lemmas about the frame loop -/

theorem decisionOfClass_eq_cheating (c : ℕ) :
    decisionOfClass c = Decision.CHEATING ↔ c = 0 := by
  unfold decisionOfClass
  split_ifs with h1 h2 <;> simp_all

theorem decision_rule_eq_cheating (p0 p1 p2 : ℚ) :
    decision_rule p0 p1 p2 = Decision.CHEATING ↔
      predicted_class p0 p1 p2 = 0 :=
  decisionOfClass_eq_cheating (predicted_class p0 p1 p2)

theorem foldl_detect_snd (predict : Person → ℚ × ℚ × ℚ)
    (ps : List Person) (img : Frame) (b : Bool) :
    (ps.foldl (detect_step predict) (img, b)).2 =
      (b || ps.any (fun p =>
        decide (predicted_class (predict p).1 (predict p).2.1 (predict p).2.2 = 0))) := by
  induction ps generalizing img b with
  | nil => simp
  | cons p ps ihp =>
    simp only [List.foldl_cons, List.any_cons]
    by_cases hc : predicted_class (predict p).1 (predict p).2.1 (predict p).2.2 = 0
    · simp only [detect_step, if_pos hc]
      rw [ihp]
      simp [hc]
    · simp only [detect_step, if_neg hc]
      rw [ihp]
      simp [hc]

theorem foldl_detect_fst (predict : Person → ℚ × ℚ × ℚ)
    (ps : List Person) (img : Frame) (b : Bool) :
    drawnRects (ps.foldl (detect_step predict) (img, b)).1 =
      drawnRects img ++
        (ps.filter (fun p =>
          decide (predicted_class (predict p).1 (predict p).2.1 (predict p).2.2 = 0))).map
          cheatRect := by
  induction ps generalizing img b with
  | nil => simp
  | cons p ps ihp =>
    simp only [List.foldl_cons]
    by_cases hc : predicted_class (predict p).1 (predict p).2.1 (predict p).2.2 = 0
    · simp only [detect_step, if_pos hc, List.filter_cons, hc, decide_eq_true hc]
      rw [ihp]
      show drawnRects (Frame.rect img (cheatRect p)) ++ _ = _
      simp [drawnRects, cheatRect]
    · simp only [detect_step, if_neg hc, List.filter_cons, decide_eq_false hc]
      simp only [Bool.false_eq_true, if_false]
      exact ihp img b

theorem foldl_detect_no_cheat (predict : Person → ℚ × ℚ × ℚ)
    (ps : List Person) (acc : Frame × Bool)
    (h : ∀ p ∈ ps, ¬ predicted_class (predict p).1 (predict p).2.1 (predict p).2.2 = 0) :
    ps.foldl (detect_step predict) acc = acc := by
  induction ps generalizing acc with
  | nil => rfl
  | cons p ps ihp =>
    rw [List.foldl_cons]
    have hp := h p (List.mem_cons_self p ps)
    simp only [detect_step, if_neg hp]
    exact ihp acc (fun q hq => h q (List.mem_cons_of_mem p hq))

/-- C2: the boolean returned by detect_cheating is true iff some detected
person decision is CHEATING, and with zero detected persons the original
frame is returned unchanged together with false. -/
theorem c2_frame_boolean (predict : Person → ℚ × ℚ × ℚ) (image : Frame)
    (persons : List Person) :
    ((detect_cheating predict image persons).2 = true ↔
      ∃ p ∈ persons,
        decision_rule (predict p).1 (predict p).2.1 (predict p).2.2 =
          Decision.CHEATING) ∧
    (persons = [] → detect_cheating predict image persons = (image, false)) := by
  constructor
  · unfold detect_cheating
    by_cases hps : persons = []
    · rw [if_pos hps, hps]
      simp
    · rw [if_neg hps, foldl_detect_snd]
      simp only [Bool.false_or, List.any_eq_true, decide_eq_true_eq]
      constructor
      · rintro ⟨p, hp, hc⟩
        exact ⟨p, hp, (decision_rule_eq_cheating _ _ _).2 hc⟩
      · rintro ⟨p, hp, hc⟩
        exact ⟨p, hp, (decision_rule_eq_cheating _ _ _).1 hc⟩
  · intro hps
    unfold detect_cheating
    rw [if_pos hps]

/-- Witness for C2 at the empty person list. -/
theorem c2_frame_boolean_witness :
    ([] : List Person) = [] ∧
    detect_cheating (fun _ => ((1 : ℚ), 0, 0)) (Frame.raw 7) [] =
      (Frame.raw 7, false) :=
  ⟨rfl, (c2_frame_boolean (fun _ => ((1 : ℚ), 0, 0)) (Frame.raw 7) []).2 rfl⟩

/-- C4: the output frame carries exactly the rectangles of the input frame
followed by one box per person whose decision is CHEATING, in order; each
such box is red (BGR (0, 0, 255)), 2 pixels thick, around the person
int()-truncated bounding box. Persons with NOT_CHEATING or UNCERTAIN
decisions contribute no box. -/
theorem c4_annotations (predict : Person → ℚ × ℚ × ℚ) (image : Frame)
    (persons : List Person) :
    drawnRects (detect_cheating predict image persons).1 =
      drawnRects image ++
        (persons.filter (fun p =>
          decide (decision_rule (predict p).1 (predict p).2.1 (predict p).2.2 =
            Decision.CHEATING))).map cheatRect ∧
    ∀ person : Person,
      (cheatRect person).thickness = 2 ∧
      (cheatRect person).color = (0, 0, 255) ∧
      (cheatRect person).start_point =
        (pyInt person.bounding_box.start_point.x,
         pyInt person.bounding_box.start_point.y) ∧
      (cheatRect person).end_point =
        (pyInt person.bounding_box.end_point.x,
         pyInt person.bounding_box.end_point.y) := by
  constructor
  · have hfilter : persons.filter (fun p =>
        decide (decision_rule (predict p).1 (predict p).2.1 (predict p).2.2 =
          Decision.CHEATING)) =
        persons.filter (fun p =>
          decide (predicted_class (predict p).1 (predict p).2.1 (predict p).2.2 = 0)) := by
      apply List.filter_congr
      intro p _
      exact decide_eq_decide.2 (decision_rule_eq_cheating _ _ _)
    rw [hfilter]
    unfold detect_cheating
    by_cases hps : persons = []
    · rw [if_pos hps, hps]
      simp
    · rw [if_neg hps]
      exact foldl_detect_fst predict persons image false
  · intro person
    exact ⟨rfl, rfl, rfl, rfl⟩

/-- C10: when no person in the frame is classified CHEATING, nothing is
drawn and detect_cheating returns the original frame together with false,
also for a nonempty person list. -/
theorem c10_no_cheating_frame_unchanged (predict : Person → ℚ × ℚ × ℚ)
    (image : Frame) (persons : List Person)
    (h : ∀ p ∈ persons,
      decision_rule (predict p).1 (predict p).2.1 (predict p).2.2 ≠
        Decision.CHEATING) :
    detect_cheating predict image persons = (image, false) := by
  unfold detect_cheating
  by_cases hps : persons = []
  · rw [if_pos hps]
  · rw [if_neg hps]
    exact foldl_detect_no_cheat predict persons (image, false)
      (fun p hp hc => h p hp ((decision_rule_eq_cheating _ _ _).2 hc))

/-- A concrete, syntactically nonempty person for the frame-loop
witnesses. -/
def cPerson : Person :=
  { keypoints := [KeyPoint.mk 0 (Point.mk 0 0) 1],
    bounding_box := Rectangle.mk (Point.mk 0 0) (Point.mk 1 1),
    score := some 1 }

/-- Witness for C10: one detected person whose prediction vector makes the
decision UNCERTAIN; the frame comes back unchanged with false. -/
theorem c10_no_cheating_frame_unchanged_witness :
    (∀ p ∈ [cPerson],
      decision_rule ((fun (_ : Person) => ((0 : ℚ), (1 : ℚ), (0 : ℚ))) p).1
          ((fun (_ : Person) => ((0 : ℚ), (1 : ℚ), (0 : ℚ))) p).2.1
          ((fun (_ : Person) => ((0 : ℚ), (1 : ℚ), (0 : ℚ))) p).2.2 ≠
        Decision.CHEATING) ∧
    detect_cheating (fun _ => ((0 : ℚ), (1 : ℚ), (0 : ℚ))) (Frame.raw 3)
      [cPerson] = (Frame.raw 3, false) := by
  have hdr : decision_rule (0 : ℚ) 1 0 ≠ Decision.CHEATING := by
    rw [decision_rule_eq_ite]
    norm_num [np_max3, max_def]
    decide
  have hall : ∀ p ∈ [cPerson],
      decision_rule ((fun (_ : Person) => ((0 : ℚ), (1 : ℚ), (0 : ℚ))) p).1
          ((fun (_ : Person) => ((0 : ℚ), (1 : ℚ), (0 : ℚ))) p).2.1
          ((fun (_ : Person) => ((0 : ℚ), (1 : ℚ), (0 : ℚ))) p).2.2 ≠
        Decision.CHEATING := fun p _ => hdr
  exact ⟨hall,
    c10_no_cheating_frame_unchanged (fun _ => ((0 : ℚ), (1 : ℚ), (0 : ℚ)))
      (Frame.raw 3) [cPerson] hall⟩

/-- A person on whom the embedding or classifier call raises: its empty
keypoint list is only used as a tag for cPredictE below. -/
def cBadPerson : Person :=
  { keypoints := [],
    bounding_box := Rectangle.mk (Point.mk 0 0) (Point.mk 1 1),
    score := none }

/-- A fallible embedding-plus-classifier call: raises on cBadPerson (empty
keypoint list), returns the cheating-dominant vector (1, 0, 0) otherwise. -/
def cPredictE : Person → Except Unit (ℚ × ℚ × ℚ) :=
  fun person =>
    if person.keypoints = [] then Except.error ()
    else Except.ok (1, 0, 0)

/-- C8 (code behaviour at the failing input): when the embedding or
classifier call raises for the first detected person, the loop has no
exception handling, so the whole frame processing aborts with the error
and the second person is never processed — even though that second person
alone would have been classified CHEATING and annotated. -/
theorem c8_per_person_failure_aborts_frame :
    detect_cheatingE cPredictE (Frame.raw 0) [cBadPerson, cPerson] =
      Except.error () ∧
    detect_cheatingE cPredictE (Frame.raw 0) [cPerson] =
      Except.ok (Frame.rect (Frame.raw 0) (cheatRect cPerson), true) := by
  have hbad : cPredictE cBadPerson = Except.error () := by
    unfold cPredictE cBadPerson
    simp
  have hgood : cPredictE cPerson = Except.ok (1, 0, 0) := by
    unfold cPredictE cPerson
    simp
  have hpc : predicted_class (1 : ℚ) 0 0 = 0 := by
    unfold predicted_class np_max3
    norm_num [max_def]
  constructor
  · unfold detect_cheatingE
    rw [if_neg (by simp)]
    simp only [List.foldlM_cons, detect_stepE, hbad]
    rfl
  · unfold detect_cheatingE
    rw [if_neg (by simp)]
    simp only [List.foldlM_cons, List.foldlM_nil, detect_stepE, hgood, hpc]
    simp [cv2_rectangle, cheatRect]

end VirtualProctor
